import Mathlib

/-!
Verification of the rainbow-tree plugin (src/main.ts).

The source is a single TypeScript file.  The parts relevant to the claims are:
* `updateFocusedPaths` (main.ts:124-146): clears the plugin's `focusedPaths`
  set, then for each open markdown file adds the file path and every proper
  ancestor path built by splitting on `'/'`.
* `updateBaseStyles` (main.ts:148-168): sets the `--nfl-unfocused-color`
  custom property on `document.body.style` and assigns the concatenation of
  ten depth rules to the owned `<style>` element's `textContent`.
* `updateFocusStyles` (main.ts:170-179): toggles the
  `plugin-nested-folder-lines-focus` class on `document.body` according to
  `settings.enableFocus`, and toggles the `focused` class on every element
  carrying a `data-path` attribute according to membership of that attribute
  value in `focusedPaths`.
* `onunload` (main.ts:109-112): removes the style element and the body class.

The shallow embedding below models strings as Lean `String`s, the JS `Set`
of focused paths as a duplicate-free `List String` in insertion order, and
the mutated document surface as an explicit `DocState` record.
-/

/-- Model of the plugin settings record `NFLSettings` (main.ts:3-8). -/
structure NFLSettings where
  colors : List String
  unfocusedColor : String
  enableFocus : Bool
  lineStyle : String
deriving DecidableEq, Repr

/-- `DEFAULT_SETTINGS` (main.ts:10-15). -/
def DEFAULT_SETTINGS : NFLSettings :=
  { colors := ["#ff5252", "#f99d6c", "#53c169", "#747dfb", "#f098fb"]
    unfocusedColor := "#999999"
    enableFocus := true
    lineStyle := "solid" }

/-- A tracked document element: its `data-path` attribute (if present) and
whether it currently carries the `focused` class. -/
structure Elem where
  dataPath : Option String
  focused : Bool
deriving DecidableEq, Repr

/-- The document state the plugin mutates: the `--nfl-unfocused-color`
custom property on `document.body.style` (none when never set), whether the
owned style element is attached to the document, its text content, the
presence of the `plugin-nested-folder-lines-focus` class on the body, and
the tracked elements. -/
structure DocState where
  unfocusedProp : Option String
  styleAttached : Bool
  styleText : String
  bodyFocusClass : Bool
  elements : List Elem
deriving DecidableEq, Repr

/-! ### Model of JS `String.prototype.split` with a one-character separator -/

/-- Helper for `jsSplit`: splits a character list at every occurrence of
`sep`, returning the first component and the remaining components. -/
def splitCharsAux (sep : Char) : List Char → List Char × List (List Char)
  | [] => ([], [])
  | c :: cs =>
      let (r, rs) := splitCharsAux sep cs
      if c = sep then ([], r :: rs) else (c :: r, rs)

/-- Model of `filePath.split('/')` (main.ts:136) for a one-character
separator: JS returns one (possibly empty) component per gap, e.g.
`"A/B"` ↦ `["A","B"]`, `"/A"` ↦ `["","A"]`, `""` ↦ `[""]`. -/
def jsSplit (sep : Char) (s : String) : List String :=
  let (r, rs) := splitCharsAux sep s.data
  (r :: rs).map String.mk

/-! ### Focus-Set Resolver (`updateFocusedPaths`, main.ts:124-146) -/

/-- Model of `Set.add` on the JS `Set<string>` of focused paths: a
duplicate-free list in insertion order; adding an already-present element
is a no-op. -/
def setAdd (s : List String) (x : String) : List String :=
  if x ∈ s then s else s ++ [x]

/-- The inner loop of `updateFocusedPaths` (main.ts:137-141): walks the
proper leading segments (indices `0 ≤ i < pathSegments.length - 1`, passed
here as `segs = pathSegments.dropLast`), maintaining `currentPath` (starts
`''`; each step appends `(i > 0 ? '/' : '') + pathSegments[i]`) and adding
each intermediate `currentPath` to the set. -/
def addAncestorLoop : List String → String → Nat → List String → List String
  | acc, _, _, [] => acc
  | acc, cur, i, seg :: rest =>
      let cur2 := cur ++ (if 0 < i then "/" else "") ++ seg
      addAncestorLoop (setAdd acc cur2) cur2 (i + 1) rest

/-- The successive values taken by `currentPath` in the loop of
`updateFocusedPaths` (main.ts:137-141), i.e. the ancestor paths it adds. -/
def ancestorAcc : String → Nat → List String → List String
  | _, _, [] => []
  | cur, i, seg :: rest =>
      let cur2 := cur ++ (if 0 < i then "/" else "") ++ seg
      cur2 :: ancestorAcc cur2 (i + 1) rest

/-- The body of the `for (const leaf of openLeaves)` loop in
`updateFocusedPaths` (main.ts:132-142) for one open file path: add the path
itself, then run the ancestor loop over all segments but the last. -/
def addFileToFocused (acc : List String) (fp : String) : List String :=
  let acc1 := setAdd acc fp
  let segs := jsSplit '/' fp
  addAncestorLoop acc1 "" 0 segs.dropLast

/-- Model of `updateFocusedPaths` (main.ts:124-146): `prevFocused` is the
set's previous contents; the method begins with `this.focusedPaths.clear()`
and repopulates from the open files, so the previous contents are
discarded. -/
def updateFocusedPathsFrom (prevFocused : List String) (openFiles : List String) :
    List String :=
  let _ := prevFocused
  let cleared : List String := []
  openFiles.foldl addFileToFocused cleared

/-- Spec-side description of an identifier's proper ancestor paths: the
segments `0`, `0-1`, …, up to but excluding the final segment, each group
joined by the separator. -/
def joinSegs : List String → String
  | [] => ""
  | [a] => a
  | a :: b :: rest => a ++ "/" ++ joinSegs (b :: rest)

/-- Spec-side proper ancestor list of an identifier: for each
`k < segments.length - 1`, the join of segments `0..k`. -/
def specAncestors (fp : String) : List String :=
  let segs := jsSplit '/' fp
  (List.range (segs.length - 1)).map (fun k => joinSegs (segs.take (k + 1)))

/-! ### Depth-Style Generator (`updateBaseStyles`, main.ts:148-168) -/

/-- Model of JS `'.nav-folder-children '.repeat(i)` (main.ts:157): `i`
concatenated copies of the string. -/
def strRepeat (s : String) : Nat → String
  | 0 => ""
  | n + 1 => s ++ strRepeat s n

/-- One iteration of the rule-building loop of `updateBaseStyles`
(main.ts:155-165): the template literal of main.ts:160-164 with
`nestedSelectors`, `this.settings.lineStyle` and `color` interpolated
(whitespace reproduced from the source).  The color is
`this.settings.colors[i % this.settings.colors.length]` (main.ts:156-158);
when `colors` is empty, JS computes `i % 0 = NaN` and `colors[NaN]` is
`undefined`, which the template interpolation renders as the text
`undefined` — modelled by `List.getD` with default `"undefined"` (for a
non-empty list the index `i % length` is in range and the default is never
used; for the empty list every lookup is out of range). -/
def depthRule (s : NFLSettings) (i : Nat) : String :=
  let nestedSelectors := strRepeat ".nav-folder-children " i
  let color := s.colors.getD (i % s.colors.length) "undefined"
  "\n                " ++ nestedSelectors ++
    ".nav-folder-children::before \x7b\n                    border-left: 1px " ++
    s.lineStyle ++ " " ++ color ++ ";\n                \x7d\n            "

/-- The stylesheet text built by `updateBaseStyles` (main.ts:149-165):
`baseStyles` starts as `''` and the loop `for (let i = 0; i < maxLevels;
i++)` with `maxLevels = 10` appends one depth rule per iteration. -/
def baseStylesText (s : NFLSettings) : String :=
  (List.range 10).foldl (fun acc i => acc ++ depthRule s i) ""

/-- Model of `updateBaseStyles` (main.ts:148-168) as a document-state
transformer: it sets the `--nfl-unfocused-color` custom property on
`document.body.style` (main.ts:153) and assigns the built text to the
owned style element's `textContent` (main.ts:167).  Nothing else is
touched. -/
def updateBaseStylesDoc (s : NFLSettings) (d : DocState) : DocState :=
  { d with
      unfocusedProp := some s.unfocusedColor
      styleText := baseStylesText s }

/-- Spec-side CSS rule skeleton shared by the depth rules: the template of
main.ts:160-164 viewed as selector + declaration. -/
def cssDepthRule (selector decl : String) : String :=
  "\n                " ++ selector ++ " \x7b\n                    " ++ decl ++
    "\n                \x7d\n            "

/-- Spec-side depth rule, phrased as the claim states it: the selector is
the child-container fragment literally repeated `i` times prefixed to the
base child-container selector, and the declaration uses
`colors[i mod length colors]` and `lineStyle`. -/
def specDepthRule (s : NFLSettings) (i : Nat) : String :=
  cssDepthRule
    (strRepeat ".nav-folder-children " i ++ ".nav-folder-children::before")
    ("border-left: 1px " ++ s.lineStyle ++ " " ++
      s.colors.getD (i % s.colors.length) "" ++ ";")

/-- The depth rule produced when the colors list is empty: the color
position holds the literal text `undefined`. -/
def undefinedDepthRule (s : NFLSettings) (i : Nat) : String :=
  cssDepthRule
    (strRepeat ".nav-folder-children " i ++ ".nav-folder-children::before")
    ("border-left: 1px " ++ s.lineStyle ++ " " ++ "undefined" ++ ";")

/-! ### Focus marking (`updateFocusStyles`, main.ts:170-179) -/

/-- Per-element body of the `elements.forEach` in `updateFocusStyles`
(main.ts:176-178).  `querySelectorAll('[data-path]')` yields exactly the
elements whose `data-path` attribute is present, and
`el.getAttribute('data-path') || ''` is then the attribute value itself
(the `|| ''` guards the `null` of an absent attribute, which cannot occur
for these elements; an empty attribute value is also mapped to `''`,
i.e. itself).  The `focused` class is toggled to the membership test
`this.focusedPaths.has(...)`. -/
def updateFocusElem (focusedPaths : List String) (e : Elem) : Elem :=
  match e.dataPath with
  | some p => { e with focused := decide (p ∈ focusedPaths) }
  | none => e

/-- Model of `updateFocusStyles` (main.ts:170-179): toggles the
`plugin-nested-folder-lines-focus` class on the body to
`settings.enableFocus` (main.ts:172) and updates every element carrying a
`data-path` attribute (main.ts:175-178). -/
def updateFocusStyles (s : NFLSettings) (focusedPaths : List String)
    (d : DocState) : DocState :=
  { d with
      bodyFocusClass := s.enableFocus
      elements := d.elements.map (updateFocusElem focusedPaths) }

/-! ### Lifecycle (`onload` main.ts:82-107, `onunload` main.ts:109-112) -/

/-- Model of the document effects of `onload` (main.ts:82-107): create and
attach the owned style element (main.ts:86-88), run `updateBaseStyles`
(main.ts:90), then run `updateFocusedPaths` (main.ts:106), which ends by
applying `updateFocusStyles`.  Returns the resolved focused-path set
together with the new document state. -/
def onloadDoc (s : NFLSettings) (openFiles : List String) (d : DocState) :
    List String × DocState :=
  let d1 := { d with styleAttached := true, styleText := "" }
  let d2 := updateBaseStylesDoc s d1
  let fp := updateFocusedPathsFrom [] openFiles
  (fp, updateFocusStyles s fp d2)

/-- Model of `onunload` (main.ts:109-112): removes the owned style element
from the document and removes the `plugin-nested-folder-lines-focus` class
from the body.  Nothing else is touched. -/
def onunloadDoc (d : DocState) : DocState :=
  { d with styleAttached := false, bodyFocusClass := false }

/-- A pristine document: no custom property ever set, no style element
attached, no focus class, and a given element list. -/
def pristineDoc (els : List Elem) : DocState :=
  { unfocusedProp := none
    styleAttached := false
    styleText := ""
    bodyFocusClass := false
    elements := els }

/-- Boolean test that `needle` starts the list `hay`. -/
def leadsChars : List Char → List Char → Bool
  | [], _ => true
  | _ :: _, [] => false
  | a :: as, b :: bs => a == b && leadsChars as bs

/-- Boolean test that `needle` occurs contiguously somewhere in `hay`. -/
def hasSubChars (needle : List Char) : List Char → Bool
  | [] => leadsChars needle []
  | c :: t => leadsChars needle (c :: t) || hasSubChars needle t

/-- Boolean substring test on strings. -/
def strHasSub (hay needle : String) : Bool :=
  hasSubChars needle.data hay.data

/-- The two-color palette of the spec's cyclic-reuse example. -/
def paletteTwo : NFLSettings :=
  { colors := ["#111", "#222"]
    unfocusedColor := "#999999"
    enableFocus := true
    lineStyle := "solid" }

/-- A configuration violating the non-empty-colors precondition. -/
def emptyPalette : NFLSettings :=
  { colors := []
    unfocusedColor := "#999999"
    enableFocus := true
    lineStyle := "solid" }

/-! ### Lemmas about the resolver -/

theorem strAppend_assoc (a b c : String) : a ++ b ++ c = a ++ (b ++ c) := by
  apply String.ext
  simp [String.data_append, List.append_assoc]

theorem mem_setAdd {acc : List String} {x p : String} :
    p ∈ setAdd acc x ↔ p ∈ acc ∨ p = x := by
  unfold setAdd
  split
  · rename_i h
    constructor
    · exact Or.inl
    · rintro (hp | rfl)
      · exact hp
      · exact h
  · simp [List.mem_append]

theorem mem_addAncestorLoop (segs : List String) :
    ∀ (acc : List String) (cur : String) (i : Nat) (p : String),
      p ∈ addAncestorLoop acc cur i segs ↔ p ∈ acc ∨ p ∈ ancestorAcc cur i segs := by
  induction segs with
  | nil =>
      intro acc cur i p
      simp [addAncestorLoop, ancestorAcc]
  | cons seg rest ih =>
      intro acc cur i p
      simp only [addAncestorLoop, ancestorAcc, List.mem_cons]
      rw [ih, mem_setAdd]
      tauto

theorem joinSegs_cons (a : String) {xs : List String} (h : xs ≠ []) :
    joinSegs (a :: xs) = a ++ "/" ++ joinSegs xs := by
  cases xs with
  | nil => exact absurd rfl h
  | cons b t => rfl

theorem ancestorAcc_succ (l : List String) :
    ∀ (pre : String) (i : Nat),
      ancestorAcc pre (i + 1) l
        = (List.range l.length).map (fun k => pre ++ "/" ++ joinSegs (l.take (k + 1))) := by
  induction l with
  | nil =>
      intro pre i
      simp [ancestorAcc]
  | cons b t ih =>
      intro pre i
      simp only [ancestorAcc, List.length_cons, List.range_succ_eq_map,
        List.map_cons, List.map_map]
      congr 1
      · simp [joinSegs]
      rw [ih]
      apply List.map_congr_left
      intro k hk
      simp only [List.mem_range] at hk
      cases t with
      | nil => simp at hk
      | cons c t2 =>
          have hne : (c :: List.take k t2 : List String) ≠ [] := by simp
          simp only [Function.comp, Nat.succ_eq_add_one, List.take_succ_cons]
          rw [joinSegs_cons b hne, if_pos (Nat.succ_pos i)]
          simp [strAppend_assoc]

theorem ancestorAcc_one (l : List String) (pre : String) :
    ancestorAcc pre 1 l
      = (List.range l.length).map (fun k => pre ++ "/" ++ joinSegs (l.take (k + 1))) :=
  ancestorAcc_succ l pre 0

theorem ancestorAcc_zero (l : List String) :
    ancestorAcc "" 0 l
      = (List.range l.length).map (fun k => joinSegs (l.take (k + 1))) := by
  cases l with
  | nil => rfl
  | cons b t =>
      simp only [ancestorAcc, List.length_cons, List.range_succ_eq_map,
        List.map_cons, List.map_map]
      congr 1
      rw [ancestorAcc_one]
      apply List.map_congr_left
      intro k hk
      simp only [List.mem_range] at hk
      cases t with
      | nil => simp at hk
      | cons c t2 =>
          have hne : (c :: List.take k t2 : List String) ≠ [] := by simp
          simp only [Function.comp, Nat.succ_eq_add_one, List.take_succ_cons]
          rw [joinSegs_cons b hne]
          simp [String.empty_append]

theorem ancestorAcc_dropLast (segs : List String) :
    ancestorAcc "" 0 segs.dropLast
      = (List.range (segs.length - 1)).map (fun k => joinSegs (segs.take (k + 1))) := by
  rw [ancestorAcc_zero, List.length_dropLast]
  apply List.map_congr_left
  intro k hk
  simp only [List.mem_range] at hk
  rw [List.dropLast_eq_take, List.take_take, Nat.min_eq_left (by omega)]

theorem mem_addFileToFocused (acc : List String) (fp p : String) :
    p ∈ addFileToFocused acc fp ↔ p ∈ acc ∨ p = fp ∨ p ∈ specAncestors fp := by
  simp only [addFileToFocused, specAncestors]
  rw [mem_addAncestorLoop, mem_setAdd, ancestorAcc_dropLast]
  tauto

theorem mem_foldl_addFile (files : List String) :
    ∀ (acc : List String) (p : String),
      p ∈ files.foldl addFileToFocused acc
        ↔ p ∈ acc ∨ ∃ fp ∈ files, p = fp ∨ p ∈ specAncestors fp := by
  induction files with
  | nil =>
      intro acc p
      simp
  | cons f rest ih =>
      intro acc p
      simp only [List.foldl_cons]
      rw [ih, mem_addFileToFocused]
      simp only [List.mem_cons, or_and_right, exists_or, exists_eq_left]
      rw [or_assoc]

theorem mem_updateFocusedPathsFrom (prevFocused files : List String) (p : String) :
    p ∈ updateFocusedPathsFrom prevFocused files
      ↔ ∃ fp ∈ files, p = fp ∨ p ∈ specAncestors fp := by
  simp only [updateFocusedPathsFrom]
  rw [mem_foldl_addFile]
  simp

theorem splitCharsAux_no_sep (sep : Char) :
    ∀ (l : List Char), ¬ sep ∈ l → splitCharsAux sep l = (l, []) := by
  intro l
  induction l with
  | nil => intro _; rfl
  | cons c cs ih =>
      intro h
      have hc : ¬ c = sep := fun e => h (by simp [e])
      simp only [splitCharsAux, ih (fun hm => h (List.mem_cons_of_mem _ hm)), if_neg hc]

theorem jsSplit_no_sep (fp : String) (h : ¬ '/' ∈ fp.data) : jsSplit '/' fp = [fp] := by
  cases fp with
  | mk l =>
      simp only [jsSplit, splitCharsAux_no_sep '/' l h]
      simp [List.map]

theorem updateFocusedPaths_singleton_no_sep (prevFocused : List String)
    (fp : String) (h : ¬ '/' ∈ fp.data) :
    updateFocusedPathsFrom prevFocused [fp] = [fp] := by
  simp only [updateFocusedPathsFrom, List.foldl_cons, List.foldl_nil, addFileToFocused]
  rw [jsSplit_no_sep fp h]
  simp [addAncestorLoop, setAdd]

theorem jsSplit_leading_sep (l : List Char) :
    jsSplit '/' (String.mk ('/' :: l)) = "" :: jsSplit '/' (String.mk l) := by
  rcases h : splitCharsAux '/' l with ⟨r, rs⟩
  simp [jsSplit, splitCharsAux, h]

theorem jsSplit_ne_nil (sep : Char) (s : String) : jsSplit sep s ≠ [] := by
  rcases h : splitCharsAux sep s.data with ⟨r, rs⟩
  simp [jsSplit, h]

theorem empty_mem_specAncestors (l : List Char) :
    "" ∈ specAncestors (String.mk ('/' :: l)) := by
  simp only [specAncestors, jsSplit_leading_sep]
  have h2 : 0 < (jsSplit '/' (String.mk l)).length :=
    List.length_pos.mpr (jsSplit_ne_nil '/' (String.mk l))
  apply List.mem_map.mpr
  refine ⟨0, ?_, ?_⟩
  · simp only [List.mem_range, List.length_cons]
    omega
  · rfl

/-! ### Lemmas about the stylesheet generator -/

theorem getD_default_irrel {l : List String} (h : l ≠ []) (i : Nat)
    (d1 d2 : String) :
    l.getD (i % l.length) d1 = l.getD (i % l.length) d2 := by
  have hlen : 0 < l.length := List.length_pos.mpr h
  have hi : i % l.length < l.length := Nat.mod_lt _ hlen
  rw [List.getD_eq_getElem l d1 hi, List.getD_eq_getElem l d2 hi]

theorem depthRule_eq_spec (s : NFLSettings) (h : s.colors ≠ []) (i : Nat) :
    depthRule s i = specDepthRule s i := by
  simp only [depthRule, specDepthRule, cssDepthRule]
  rw [getD_default_irrel h i "undefined" ""]
  have hT2 : (".nav-folder-children::before \x7b\n                    border-left: 1px " : String)
      = ".nav-folder-children::before" ++ " \x7b\n                    " ++ "border-left: 1px " := by
    decide
  have hT3 : (";\n                \x7d\n            " : String)
      = ";" ++ "\n                \x7d\n            " := by
    decide
  rw [hT2, hT3]
  simp only [strAppend_assoc]

theorem depthRule_eq_undefined (s : NFLSettings) (h : s.colors = []) (i : Nat) :
    depthRule s i = undefinedDepthRule s i := by
  have hc : s.colors.getD (i % s.colors.length) "undefined" = "undefined" := by
    rw [h]; simp
  simp only [depthRule, undefinedDepthRule, cssDepthRule]
  rw [hc]
  have hT2 : (".nav-folder-children::before \x7b\n                    border-left: 1px " : String)
      = ".nav-folder-children::before" ++ " \x7b\n                    " ++ "border-left: 1px " := by
    decide
  have hT3 : (";\n                \x7d\n            " : String)
      = ";" ++ "\n                \x7d\n            " := by
    decide
  rw [hT2, hT3]
  simp only [strAppend_assoc]

theorem foldl_append_congr {f g : Nat → String} (l : List Nat)
    (h : ∀ i ∈ l, f i = g i) :
    ∀ init : String,
      l.foldl (fun acc i => acc ++ f i) init = (l.map g).foldl (· ++ ·) init := by
  induction l with
  | nil => intro init; rfl
  | cons a t ih =>
      intro init
      simp only [List.foldl_cons, List.map_cons]
      rw [h a (by simp)]
      exact ih (fun i hi => h i (List.mem_cons_of_mem _ hi)) _

theorem baseStylesText_eq_spec (s : NFLSettings) (h : s.colors ≠ []) :
    baseStylesText s = ((List.range 10).map (specDepthRule s)).foldl (· ++ ·) "" :=
  foldl_append_congr (List.range 10) (fun i _ => depthRule_eq_spec s h i) ""

theorem baseStylesText_eq_undefined (s : NFLSettings) (h : s.colors = []) :
    baseStylesText s = ((List.range 10).map (undefinedDepthRule s)).foldl (· ++ ·) "" :=
  foldl_append_congr (List.range 10) (fun i _ => depthRule_eq_undefined s h i) ""

/-! ### Lemmas about focus marking -/

theorem updateFocusElem_idem (fp : List String) (e : Elem) :
    updateFocusElem fp (updateFocusElem fp e) = updateFocusElem fp e := by
  cases e with
  | mk dp f0 => cases dp <;> rfl

theorem map_updateFocusElem_idem (fp : List String) (els : List Elem) :
    (els.map (updateFocusElem fp)).map (updateFocusElem fp)
      = els.map (updateFocusElem fp) := by
  rw [List.map_map]
  apply List.map_congr_left
  intro e _
  exact updateFocusElem_idem fp e

theorem elements_focused_iff (s : NFLSettings) (fp : List String) (d : DocState)
    (e : Elem) (he : e ∈ (updateFocusStyles s fp d).elements)
    (p : String) (hp : e.dataPath = some p) :
    e.focused = true ↔ p ∈ fp := by
  simp only [updateFocusStyles] at he
  obtain ⟨e0, -, rfl⟩ := List.mem_map.mp he
  cases e0 with
  | mk dp f0 =>
      cases dp with
      | none => simp [updateFocusElem] at hp
      | some q =>
          simp only [updateFocusElem] at hp ⊢
          cases hp
          simp

/-! ### Claim theorems -/

/-- C1: for every finite sequence of open identifiers, the focus-set
resolution (`updateFocusedPaths`) produces exactly the union, over all
input identifiers, of the identifier itself plus every proper ancestor
path (segments `0`; `0-1`; … up to but excluding the final segment), and
nothing else; the empty input yields the empty set, and an identifier with
no separator yields only itself. -/
theorem focusResolution_exact (prevFocused files : List String) (p : String) :
    (p ∈ updateFocusedPathsFrom prevFocused files
        ↔ ∃ fp ∈ files, p = fp ∨ p ∈ specAncestors fp)
    ∧ updateFocusedPathsFrom prevFocused [] = []
    ∧ (∀ fp : String, ¬ '/' ∈ fp.data →
        updateFocusedPathsFrom prevFocused [fp] = [fp]) :=
  ⟨mem_updateFocusedPathsFrom prevFocused files p, rfl,
    fun fp h => updateFocusedPaths_singleton_no_sep prevFocused fp h⟩

/-- Witness for C1 at concrete inputs. -/
theorem focusResolution_exact_witness :
    ("A" ∈ updateFocusedPathsFrom [] ["A/B/C"]
        ↔ ∃ fp ∈ ["A/B/C"], "A" = fp ∨ "A" ∈ specAncestors fp)
    ∧ updateFocusedPathsFrom [] [] = []
    ∧ updateFocusedPathsFrom [] ["Root"] = ["Root"] :=
  ⟨(focusResolution_exact [] ["A/B/C"] "A").1,
    (focusResolution_exact [] ["A/B/C"] "A").2.1,
    (focusResolution_exact [] ["A/B/C"] "A").2.2 "Root" (by decide)⟩

set_option maxRecDepth 40000 in
/-- C2 counterexample: `updateBaseStyles` is not free of side effects
beyond producing text (it mutates the body's `--nfl-unfocused-color`
custom property), and the text blob it assigns as the stylesheet does not
contain any declaration for the unfocused color: neither the custom
property name nor the default unfocused color value occurs in the text. -/
theorem buildStylesheet_purity_cex :
    (updateBaseStylesDoc DEFAULT_SETTINGS (pristineDoc [])).unfocusedProp
        ≠ (pristineDoc []).unfocusedProp
    ∧ strHasSub (baseStylesText DEFAULT_SETTINGS) "--nfl-unfocused-color" = false
    ∧ strHasSub (baseStylesText DEFAULT_SETTINGS) "#999999" = false :=
  ⟨by decide, by decide, by decide⟩

/-- C2 (amended): `updateBaseStyles` assigns as the stylesheet text the
concatenation of the ten depth rules only; the unfocused-color custom
property is set as a separate side effect on the document body's style,
not included in the text blob; no other document state is modified. -/
theorem buildStylesheet_output (s : NFLSettings) (d : DocState)
    (h : s.colors ≠ []) :
    (updateBaseStylesDoc s d).styleText
        = ((List.range 10).map (specDepthRule s)).foldl (· ++ ·) ""
    ∧ (updateBaseStylesDoc s d).unfocusedProp = some s.unfocusedColor
    ∧ (updateBaseStylesDoc s d).styleAttached = d.styleAttached
    ∧ (updateBaseStylesDoc s d).bodyFocusClass = d.bodyFocusClass
    ∧ (updateBaseStylesDoc s d).elements = d.elements :=
  ⟨baseStylesText_eq_spec s h, rfl, rfl, rfl, rfl⟩

/-- Witness for the amended C2 at the default settings. -/
theorem buildStylesheet_output_witness :
    (updateBaseStylesDoc DEFAULT_SETTINGS (pristineDoc [])).styleText
        = ((List.range 10).map (specDepthRule DEFAULT_SETTINGS)).foldl (· ++ ·) ""
    ∧ (updateBaseStylesDoc DEFAULT_SETTINGS (pristineDoc [])).unfocusedProp
        = some DEFAULT_SETTINGS.unfocusedColor
    ∧ (updateBaseStylesDoc DEFAULT_SETTINGS (pristineDoc [])).styleAttached
        = (pristineDoc []).styleAttached
    ∧ (updateBaseStylesDoc DEFAULT_SETTINGS (pristineDoc [])).bodyFocusClass
        = (pristineDoc []).bodyFocusClass
    ∧ (updateBaseStylesDoc DEFAULT_SETTINGS (pristineDoc [])).elements
        = (pristineDoc []).elements :=
  buildStylesheet_output DEFAULT_SETTINGS (pristineDoc []) (by decide)

/-- C3: for every configuration with a non-empty colors list, the
generated stylesheet is exactly the concatenation, for `i` from 0 up to
but excluding 10, of the rule whose selector is the child-container
fragment repeated `i` times prefixed to the base child-container selector
and whose declaration uses `colors[i mod length colors]` and `lineStyle`;
with palette `["#111","#222"]` the depth-0 and depth-2 rules reference
`"#111"` and the depth-1 and depth-3 rules reference `"#222"`. -/
theorem depthStylesheet_rules (s : NFLSettings) (h : s.colors ≠ []) :
    baseStylesText s = ((List.range 10).map (specDepthRule s)).foldl (· ++ ·) ""
    ∧ strHasSub (depthRule paletteTwo 0) "#111" = true
    ∧ strHasSub (depthRule paletteTwo 1) "#222" = true
    ∧ strHasSub (depthRule paletteTwo 2) "#111" = true
    ∧ strHasSub (depthRule paletteTwo 3) "#222" = true
    ∧ strHasSub (depthRule paletteTwo 1) "#111" = false
    ∧ strHasSub (depthRule paletteTwo 0) "#222" = false :=
  ⟨baseStylesText_eq_spec s h, by decide, by decide, by decide, by decide,
    by decide, by decide⟩

/-- Witness for C3 at the example palette. -/
theorem depthStylesheet_rules_witness :
    baseStylesText paletteTwo
      = ((List.range 10).map (specDepthRule paletteTwo)).foldl (· ++ ·) "" :=
  (depthStylesheet_rules paletteTwo (by decide)).1

/-- C4: after `updateFocusStyles` runs, the focus-mode class on the
document root is present iff `config.enableFocus` is true, and every
tracked element carrying a `data-path` attribute carries the `focused`
class iff its path is a member of the focused set. -/
theorem applyFocus_marks (s : NFLSettings) (fp : List String) (d : DocState) :
    ((updateFocusStyles s fp d).bodyFocusClass = true ↔ s.enableFocus = true)
    ∧ ∀ e ∈ (updateFocusStyles s fp d).elements, ∀ p : String,
        e.dataPath = some p → (e.focused = true ↔ p ∈ fp) :=
  ⟨Iff.rfl, fun e he p hp => elements_focused_iff s fp d e he p hp⟩

/-- Witness for C4 at a concrete element and focused set. -/
theorem applyFocus_marks_witness :
    ((updateFocusStyles DEFAULT_SETTINGS ["A"]
          (pristineDoc [Elem.mk (some "A") false])).bodyFocusClass = true
        ↔ DEFAULT_SETTINGS.enableFocus = true)
    ∧ ((Elem.mk (some "A") true).focused = true ↔ "A" ∈ ["A"]) :=
  ⟨(applyFocus_marks DEFAULT_SETTINGS ["A"]
      (pristineDoc [Elem.mk (some "A") false])).1,
    (applyFocus_marks DEFAULT_SETTINGS ["A"]
      (pristineDoc [Elem.mk (some "A") false])).2
      (Elem.mk (some "A") true) (by decide) "A" rfl⟩

/-- C5 counterexample: running `onload` on a pristine document and then
`onunload` does not restore the document to its pre-activation state —
the `--nfl-unfocused-color` custom property set on the body during
activation is left behind by `onunload`. -/
theorem deactivate_restore_cex :
    onunloadDoc (onloadDoc DEFAULT_SETTINGS [] (pristineDoc [])).2 ≠ pristineDoc []
    ∧ (onunloadDoc (onloadDoc DEFAULT_SETTINGS [] (pristineDoc [])).2).unfocusedProp
        = some "#999999"
    ∧ (pristineDoc []).unfocusedProp = none :=
  ⟨by decide, rfl, rfl⟩

/-- C5 (amended): after `onunload`, regardless of prior focus-mode state,
the owned style resource is detached and the global focus-mode class is
removed; but the rest of the document state — in particular the
`--nfl-unfocused-color` custom property set on the body during activation
and the per-element `focused` classes — is left exactly as it was, so the
ambient environment is not restored to its pre-activation state. -/
theorem deactivate_detaches (d : DocState) :
    (onunloadDoc d).styleAttached = false
    ∧ (onunloadDoc d).bodyFocusClass = false
    ∧ (onunloadDoc d).unfocusedProp = d.unfocusedProp
    ∧ (onunloadDoc d).styleText = d.styleText
    ∧ (onunloadDoc d).elements = d.elements :=
  ⟨rfl, rfl, rfl, rfl, rfl⟩

/-- C6: every resolution call rebuilds the focused set from scratch: the
result is independent of the set's previous contents, and every member of
the result is derived from a currently open identifier (the identifier
itself or one of its proper ancestors). -/
theorem focusedSet_rebuilt_fresh (prev1 prev2 files : List String) :
    updateFocusedPathsFrom prev1 files = updateFocusedPathsFrom prev2 files
    ∧ ∀ p ∈ updateFocusedPathsFrom prev1 files,
        ∃ fp ∈ files, p = fp ∨ p ∈ specAncestors fp :=
  ⟨rfl, fun p hp => (mem_updateFocusedPathsFrom prev1 files p).mp hp⟩

/-- Witness for C6: a stale previous entry does not survive resolution. -/
theorem focusedSet_rebuilt_fresh_witness :
    updateFocusedPathsFrom ["stale/file"] ["A/B"] = updateFocusedPathsFrom [] ["A/B"]
    ∧ ∃ fp ∈ ["A/B"], "A" = fp ∨ "A" ∈ specAncestors fp :=
  ⟨(focusedSet_rebuilt_fresh ["stale/file"] [] ["A/B"]).1,
    (focusedSet_rebuilt_fresh ["stale/file"] [] ["A/B"]).2 "A" (by decide)⟩

/-- C7: `updateFocusStyles` is idempotent — applying it twice with the
same focused set and configuration leaves the document state identical to
the state after the first application. -/
theorem applyFocus_idem (s : NFLSettings) (fp : List String) (d : DocState) :
    updateFocusStyles s fp (updateFocusStyles s fp d) = updateFocusStyles s fp d := by
  simp only [updateFocusStyles]
  rw [map_updateFocusElem_idem]

/-- C8: stylesheet generation is deterministic — two invocations of
`updateBaseStyles` with identical configuration produce byte-identical
stylesheet text, whatever the ambient document states. -/
theorem stylesheet_deterministic (s : NFLSettings) (d1 d2 : DocState) :
    (updateBaseStylesDoc s d1).styleText = (updateBaseStylesDoc s d2).styleText :=
  rfl

/-- C9: `updateBaseStyles` is total even with an empty colors list: it
produces the stylesheet whose ten depth rules each hold the literal text
`undefined` in the color position (JS `i % 0` is `NaN` and `colors[NaN]`
is `undefined`) rather than failing. -/
theorem emptyPalette_total (s : NFLSettings) (h : s.colors = []) :
    baseStylesText s
      = ((List.range 10).map (undefinedDepthRule s)).foldl (· ++ ·) "" :=
  baseStylesText_eq_undefined s h

/-- Witness for C9 at a concrete empty-palette configuration. -/
theorem emptyPalette_total_witness :
    baseStylesText emptyPalette
      = ((List.range 10).map (undefinedDepthRule emptyPalette)).foldl (· ++ ·) "" :=
  emptyPalette_total emptyPalette rfl

/-- C10: an open identifier that begins with the path separator
contributes the empty string to the focused set; resolving `["/A/B"]`
yields exactly `"/A/B"`, `""` and `"/A"`. -/
theorem leadingSep_empty_focused (prevFocused : List String) :
    (∀ fp : String, fp.data.head? = some '/' →
        "" ∈ updateFocusedPathsFrom prevFocused [fp])
    ∧ updateFocusedPathsFrom prevFocused ["/A/B"] = ["/A/B", "", "/A"] := by
  constructor
  · intro fp hfp
    rcases fp with ⟨l⟩
    cases l with
    | nil => simp at hfp
    | cons c t =>
        have hc : c = '/' := by simpa using hfp
        subst hc
        exact (mem_updateFocusedPathsFrom prevFocused [String.mk ('/' :: t)] "").mpr
          ⟨String.mk ('/' :: t), by simp, Or.inr (empty_mem_specAncestors t)⟩
  · rfl

/-- Witness for C10 at the identifier of the claim. -/
theorem leadingSep_empty_focused_witness :
    "" ∈ updateFocusedPathsFrom [] ["/A/B"] :=
  (leadingSep_empty_focused []).1 "/A/B" (by decide)
